import Mathlib

/-!
# PicSort safe-move engine: a verification development

This file shallowly embeds the correctness-critical core of the PicSort
repository (the safe-move execution engine) and proves the specification's
testable properties against it.

Embedded from source where the source is present:
* `src/src/models/file_operation.py` — the `FileOperation` ledger and its
  status state machine (`VALID_TRANSITIONS`, `can_transition_to`,
  `transition_to`, `_validate`, `is_terminal`).
* `src/src/cli/commands/organize.py` — the move phase of the `organize`
  command: plan building (lines 334-352), the per-file execution loop with
  resume-point updates and the interrupt handler (lines 354-399), and the
  exit-status computation (lines 432-468).
* `src/src/cli/commands/resume.py` — the empty-pending early return and the
  resume execution loop (lines 183-215, 253-257).

`src/src/lib/file_mover.py` and `src/src/lib/resume_manager.py` are not
present in the repository snapshot (only their callers and their tests are);
the definitions taken from them are modelled from the specification, and each
such definition carries a doc comment starting with `Modelled from the spec:`.

The filesystem is modelled as a partial map from path strings to file
contents; a content hash is modelled by an injective, never-empty function on
contents.
-/

/-- The six status values of `FileOperation.VALID_STATUSES`
(`file_operation.py` line 24). -/
inductive Status where
  | pending
  | copying
  | verifying
  | completed
  | failed
  | skipped
deriving DecidableEq, Repr, Fintype

/-- A discovered source file (`src/src/models/media_file.py`); only the
fields the move engine reads are kept (absolute path and filename). -/
structure MediaFile where
  path : String
  filename : String
deriving DecidableEq, Repr

/-- One planned or executed move (`file_operation.py` lines 10-21); the
timing fields (`operation_time`, `duration_ms`) are irrelevant to every
claim and are omitted. -/
structure FileOperation where
  source_file : MediaFile
  destination_path : String
  status : Status
  error_message : Option String
  checksum_source : Option String
  checksum_dest : Option String
deriving DecidableEq, Repr

/-- Python truthiness of an `Optional[str]`: `None` and the empty string are
falsy (`not self.checksum_source` in `_validate`). -/
def strFalsy : Option String → Bool
  | none => true
  | some s => s.isEmpty

/-- `FileOperation.VALID_TRANSITIONS` (`file_operation.py` lines 27-34). -/
def VALID_TRANSITIONS : Status → List Status
  | .pending => [.copying, .skipped, .failed]
  | .copying => [.verifying, .failed]
  | .verifying => [.completed, .failed]
  | .completed => []
  | .failed => []
  | .skipped => []

namespace FileOperation

/-- `FileOperation._validate` (`file_operation.py` lines 40-61).  The
`Path(self.destination_path)` probe never raises for a `str`, so it is not
modelled; the result is the `ValueError` message raised, if any. -/
def validate (op : FileOperation) : Except String Unit :=
  if op.status = .completed ∧ (strFalsy op.checksum_source ∨ strFalsy op.checksum_dest) then
    .error "Both checksums required when status is 'completed'"
  else if op.status = .completed ∧ op.checksum_source ≠ op.checksum_dest then
    .error "Checksums must match when status is 'completed'"
  else if op.status = .failed ∧ strFalsy op.error_message then
    .error "error_message required when status is 'failed'"
  else
    .ok ()

/-- `FileOperation.can_transition_to` (`file_operation.py` lines 63-67);
with statuses embedded as an enumeration the `VALID_STATUSES` membership
test is always true. -/
def can_transition_to (op : FileOperation) (new_status : Status) : Bool :=
  (VALID_TRANSITIONS op.status).contains new_status

/-- `FileOperation.transition_to` (`file_operation.py` lines 69-87).  The
Python method mutates `self.status` (and possibly `self.error_message`) and
then validates, raising `ValueError` if validation fails — the mutation is
not rolled back.  The embedding returns the post-call object together with
the outcome (`.error` = `ValueError` raised). -/
def transition_to (op : FileOperation) (new_status : Status)
    (error_message : Option String) : FileOperation × Except String Unit :=
  if op.can_transition_to new_status = false then
    (op, .error "Invalid transition")
  else
    let op1 : FileOperation := { op with status := new_status }
    let op2 : FileOperation :=
      if new_status = .failed ∧ strFalsy error_message = false then
        { op1 with error_message := error_message }
      else op1
    (op2, op2.validate)

/-- `FileOperation.is_terminal` (`file_operation.py` lines 89-91). -/
def is_terminal (op : FileOperation) : Bool :=
  op.status = .completed ∨ op.status = .failed ∨ op.status = .skipped

/-- `FileOperation.is_successful` (`file_operation.py` lines 93-95). -/
def is_successful (op : FileOperation) : Bool :=
  op.status = .completed

end FileOperation

/-- The filesystem, modelled as a partial map from absolute path strings to
file contents. -/
abbrev FS : Type := String → Option String

/-- `os.path.exists`. -/
def FS.pathExists (fs : FS) (p : String) : Bool := (fs p).isSome

/-- Writing a file (`shutil.copy2` target side): the destination receives
the given contents, every other path is untouched. -/
def FS.write (fs : FS) (p c : String) : FS :=
  fun q => if q = p then some c else fs q

/-- `os.remove`: the path is unmapped, every other path is untouched. -/
def FS.remove (fs : FS) (p : String) : FS :=
  fun q => if q = p then none else fs q

/-- `os.path.join` with a fixed separator. -/
def joinPath (folder name : String) : String := folder ++ "/" ++ name

/-- Split a character list at its last `'.'`: `some (stem, ext)` with
`ext` starting at that dot, or `none` when no dot occurs.  Part of the model
of `FileMover._get_destination_path` (absent from `src/`). -/
def splitLastDot : List Char → Option (List Char × List Char)
  | [] => none
  | c :: cs =>
    match splitLastDot cs with
    | some (s, e) => some (c :: s, e)
    | none => if c = '.' then some ([], '.' :: cs) else none

/-- Modelled from the spec: the stem/extension split of
`FileMover._get_destination_path` (`file_mover.py` is absent from `src/`):
"split the filename into stem and extension at the last dot", a filename
with no dot keeping an empty extension (spec section 4.1). -/
def splitStemExt (name : String) : String × String :=
  match splitLastDot name.toList with
  | none => (name, "")
  | some (s, e) => (String.mk s, String.mk e)

/-- The safety bound on the duplicate probe count (spec section 4.1:
"implementation-defined, e.g. 1000"; `test_get_destination_path_increment_safety_limit`
requires a `ValueError` mentioning "Too many duplicates"). -/
def MAX_DUPLICATES : Nat := 1000

/-- The i-th probe candidate `stem_i.ext` of the increment policy. -/
def candName (stem ext : String) (i : Nat) : String :=
  stem ++ "_" ++ Nat.repr i ++ ext

/-- Modelled from the spec: the bounded existence-probe loop of the
increment policy (spec sections 4.1 and 9: a bounded iterator probing
`stem_1.ext`, `stem_2.ext`, …, fatal "Too many duplicates" past the bound). -/
def probeLoop (ex : String → Bool) (stem ext : String) : Nat → Nat → Except String String
  | _, 0 => .error "Too many duplicates"
  | i, fuel + 1 =>
    if ex (candName stem ext i) then probeLoop ex stem ext (i + 1) fuel
    else .ok (candName stem ext i)

/-- The `duplicate_handling` enumeration of `Configuration`
(`src/src/models/configuration.py` line 26). -/
inductive DuplicateHandling where
  | increment
  | skip
  | overwrite
deriving DecidableEq, Repr

/-- Modelled from the spec: the name-level core of
`FileMover._get_destination_path` (`file_mover.py` is absent from `src/`;
behaviour pinned by spec section 4.1 and `tests/unit/test_duplicate_names.py`):
dry-run always returns the un-incremented original name; `overwrite` and
`skip` return the original name; `increment` returns the original name when
no file of that name exists and otherwise probes `stem_1.ext`, `stem_2.ext`,
… with existence test `ex`. -/
def get_destination_name (dup : DuplicateHandling) (dry_run : Bool)
    (ex : String → Bool) (filename : String) : Except String String :=
  if dry_run then .ok filename
  else
    match dup with
    | .overwrite => .ok filename
    | .skip => .ok filename
    | .increment =>
      if ex filename then
        probeLoop ex (splitStemExt filename).1 (splitStemExt filename).2 1 MAX_DUPLICATES
      else .ok filename

/-- Modelled from the spec: `FileMover._get_destination_path` (absent from
`src/`): resolves a filename against the files present in `folder` under the
existence oracle `ex` over full paths, returning a full destination path. -/
def get_destination_path (dup : DuplicateHandling) (dry_run : Bool)
    (ex : String → Bool) (folder filename : String) : Except String String :=
  (get_destination_name dup dry_run (fun n => ex (joinPath folder n)) filename).map
    (joinPath folder)

/-- Model of the MD5 content hash used for checksum verification: any
injective, never-empty function of the contents. -/
def hashContent (content : String) : String := "h" ++ content

/-- Modelled from the spec: `FileMover.move_file` (`file_mover.py` is absent
from `src/`; behaviour pinned by spec section 4.2 and
`tests/integration/test_safe_move.py`).  Given a `pending` operation:
transition to `copying` and copy the source bytes to the destination (an I/O
error — missing source, or a destination on which writes fail per `ioError`
— transitions to `failed` and leaves the filesystem unchanged); when
`verify` is set, transition to `verifying` and hash both sides, a mismatch
transitioning to `failed` without deleting the source; on success (or with
verification disabled) delete the source and transition to `completed`,
recording the matching checksums (or the sentinel "skipped"); the
`verifying` status is traversed in both cases, `completed` being reachable
only from it in the state machine.  A non-pending
input makes `transition_to` raise before any I/O, leaving filesystem and
operation unchanged. -/
def move_file (verify : Bool) (ioError : String → Bool) (fs : FS)
    (op : FileOperation) : FS × FileOperation :=
  if op.status = .pending then
    let op1 := (op.transition_to .copying none).1
    match fs op1.source_file.path with
    | none =>
        (fs, (op1.transition_to .failed (some "Copy failed: source file not found")).1)
    | some content =>
      if ioError op1.destination_path then
        (fs, (op1.transition_to .failed (some "Copy failed: permission denied")).1)
      else
        let fs1 := fs.write op1.destination_path content
        if verify then
          let op2 := (op1.transition_to .verifying none).1
          let checksum_src := hashContent content
          let checksum_dst := hashContent ((fs1 op2.destination_path).getD "")
          if checksum_src = checksum_dst then
            let op3 : FileOperation :=
              { op2 with checksum_source := some checksum_src,
                         checksum_dest := some checksum_dst }
            (fs1.remove op3.source_file.path, (op3.transition_to .completed none).1)
          else
            (fs1, (op2.transition_to .failed (some "Checksum verification failed")).1)
        else
          let op2 := (op1.transition_to .verifying none).1
          let op3 : FileOperation :=
            { op2 with checksum_source := some "skipped", checksum_dest := some "skipped" }
          (fs1.remove op3.source_file.path, (op3.transition_to .completed none).1)
  else
    (fs, op)

/-- Durable snapshot of one in-flight organize operation; only the completed
and pending ledgers matter to the claims (identifier, type, source path and
configuration snapshot omitted). -/
structure ResumePoint where
  completed : List FileOperation
  pending : List FileOperation
deriving DecidableEq, Repr

/-- Modelled from the spec: `ResumeManager.update_resume_point`
(`resume_manager.py` is absent from `src/`; behaviour pinned by spec
sections 3 and 4.3 and the call sites in `organize.py` lines 355-359,
368-374, 391-396): append the completed operation (when one is given) to the
completed ledger and replace the pending ledger, persisting the whole
snapshot. -/
def update_resume_point (rp : ResumePoint) (completed_operation : Option FileOperation)
    (pending_operations : List FileOperation) : ResumePoint :=
  { completed :=
      match completed_operation with
      | some op => rp.completed ++ [op]
      | none => rp.completed,
    pending := pending_operations }

/-- Modelled from the spec: `ResumeManager.create_pending_operations`
(`resume_manager.py` is absent from `src/`): reconstructs the
`FileOperation`s of the stored pending ledger, verbatim (spec section 4.4:
resume "re-executes only the pending list verbatim"). -/
def create_pending_operations (rp : ResumePoint) : List FileOperation :=
  rp.pending

/-- Plan building for one target folder (`organize.py` lines 336-352): each
file's destination is resolved against the filesystem as it is at plan time
(`dry_run=False` at line 339) and wrapped in a `pending` operation. -/
def build_folder_operations (dup : DuplicateHandling) (fs : FS) (folder : String) :
    List MediaFile → Except String (List FileOperation)
  | [] => .ok []
  | mf :: more => do
    let dest ← get_destination_path dup false (fun p => (fs p).isSome) folder mf.filename
    let ops ← build_folder_operations dup fs folder more
    .ok ({ source_file := mf, destination_path := dest, status := .pending,
           error_message := none, checksum_source := none,
           checksum_dest := none } :: ops)

/-- Plan building over the whole `target folder → files` organization
(`organize.py` lines 334-352): every destination is resolved before any move
is executed. -/
def build_file_operations (dup : DuplicateHandling) (fs : FS) :
    List (String × List MediaFile) → Except String (List FileOperation)
  | [] => .ok []
  | (folder, files) :: rest => do
    let ops ← build_folder_operations dup fs folder files
    let more ← build_file_operations dup fs rest
    .ok (ops ++ more)

/-- The outcome of the per-file execution loop. -/
structure RunResult where
  fs : FS
  results : List FileOperation
  snaps : List ResumePoint
  interrupted : Bool

/-- The per-file execution loop of `organize` (`organize.py` lines 362-399):
each operation is executed via `move_file`, then the resume point is updated
with the completed operation and the remaining pending list; a
`KeyboardInterrupt` (modelled as arriving during the `k`-th move) makes the
handler persist the remaining pending list — current operation included —
without appending to the completed ledger, before re-raising.  `snaps` lists
every resume-point update written by the loop, in order. -/
def organize_move_loop (verify : Bool) (ioError : String → Bool) :
    FS → ResumePoint → List FileOperation → Nat → RunResult
  | fs, _, [], _ => ⟨fs, [], [], false⟩
  | fs, rp, op :: rest, 0 =>
      ⟨fs, [], [update_resume_point rp none (op :: rest)], true⟩
  | fs, rp, op :: rest, k + 1 =>
      let m := move_file verify ioError fs op
      let rp1 := update_resume_point rp (some m.2) rest
      let r := organize_move_loop verify ioError m.1 rp1 rest k
      ⟨r.fs, m.2 :: r.results, rp1 :: r.snaps, r.interrupted⟩

/-- The exit-status computation of `organize` (`organize.py` lines 432,
449-468): return 1 when at least one operation failed, 0 otherwise. -/
def organize_exit_code (operations : List FileOperation) : Nat :=
  if 0 < (operations.filter fun op => op.status == .failed).length then 1 else 0

/-- The outcome of an `organize` (or `resume`) command run. -/
structure CommandResult where
  fs : FS
  results : List FileOperation
  snaps : List ResumePoint
  exit_code : Nat

/-- The move phase of `organize` (`organize.py` lines 334-495 without the
dry-run early return): build the full plan (a resolution error propagates to
the outer handler, which returns 1 with nothing executed), write the initial
resume update carrying the whole plan as pending (lines 355-359), run the
loop, and exit 130 on interrupt (line 481) or per `organize_exit_code`. -/
def organize_move_phase (verify : Bool) (ioError : String → Bool)
    (dup : DuplicateHandling) (fs : FS) (org : List (String × List MediaFile))
    (k : Nat) : CommandResult :=
  match build_file_operations dup fs org with
  | .error _ => ⟨fs, [], [], 1⟩
  | .ok plan =>
    let rp0 := update_resume_point ⟨[], []⟩ none plan
    let r := organize_move_loop verify ioError fs rp0 plan k
    ⟨r.fs, r.results, rp0 :: r.snaps,
      if r.interrupted then 130 else organize_exit_code r.results⟩

/-- The `organize` command (`organize.py`): in dry-run mode it reports a
preview and returns 0 before the move phase (lines 290-309) — no resume
point, no operation, no filesystem effect; otherwise it runs the move
phase. -/
def organize_command (verify : Bool) (ioError : String → Bool)
    (dup : DuplicateHandling) (dry_run : Bool) (fs : FS)
    (org : List (String × List MediaFile)) (k : Nat) : CommandResult :=
  if dry_run then ⟨fs, [], [], 0⟩
  else organize_move_phase verify ioError dup fs org k

/-- Modelled from the spec: `FileMover._move_single_file` (`file_mover.py`
is absent from `src/`; behaviour pinned by `tests/unit/test_duplicate_names.py`
and `tests/performance/test_throughput.py`): resolve the destination at move
time, build a `pending` operation, and in dry-run mode mark it `skipped`
without touching the filesystem, otherwise execute it via `move_file`. -/
def move_single_file (verify : Bool) (ioError : String → Bool)
    (dup : DuplicateHandling) (dry_run : Bool) (fs : FS) (folder : String)
    (mf : MediaFile) : FS × Except String FileOperation :=
  match get_destination_path dup dry_run (fun p => (fs p).isSome) folder mf.filename with
  | .error e => (fs, .error e)
  | .ok dest =>
    let op : FileOperation :=
      { source_file := mf, destination_path := dest, status := .pending,
        error_message := none, checksum_source := none, checksum_dest := none }
    if dry_run then (fs, .ok (op.transition_to .skipped none).1)
    else
      let r := move_file verify ioError fs op
      (r.1, .ok r.2)

/-- Modelled from the spec: the inner per-folder loop of
`FileMover.move_files` (absent from `src/`): files are moved one at a time,
each resolution seeing the filesystem as previous moves left it. -/
def move_folder_files (verify : Bool) (ioError : String → Bool)
    (dup : DuplicateHandling) (dry_run : Bool) :
    FS → String → List MediaFile → FS × Except String (List FileOperation)
  | fs, _, [] => (fs, .ok [])
  | fs, folder, mf :: rest =>
    match move_single_file verify ioError dup dry_run fs folder mf with
    | (fs1, .error e) => (fs1, .error e)
    | (fs1, .ok op) =>
      match move_folder_files verify ioError dup dry_run fs1 folder rest with
      | (fs2, .error e) => (fs2, .error e)
      | (fs2, .ok ops) => (fs2, .ok (op :: ops))

/-- Modelled from the spec: `FileMover.move_files` (absent from `src/`):
drives `_move_single_file` over the `target folder → files` organization. -/
def move_files (verify : Bool) (ioError : String → Bool)
    (dup : DuplicateHandling) (dry_run : Bool) :
    FS → List (String × List MediaFile) → FS × Except String (List FileOperation)
  | fs, [] => (fs, .ok [])
  | fs, (folder, files) :: rest =>
    match move_folder_files verify ioError dup dry_run fs folder files with
    | (fs1, .error e) => (fs1, .error e)
    | (fs1, .ok ops) =>
      match move_files verify ioError dup dry_run fs1 rest with
      | (fs2, .error e) => (fs2, .error e)
      | (fs2, .ok more) => (fs2, .ok (ops ++ more))

/-- The outcome of a `resume` command run. -/
structure ResumeResult where
  fs : FS
  results : List FileOperation
  mover_calls : Nat
  exit_code : Nat

/-- The execution part of the `resume` command (`resume.py` lines 183-257):
reconstruct the pending operations; when the list is empty, print, clean up
and return 0 immediately — the mover is never constructed and `move_file` is
never called; otherwise run the per-file loop (each iteration is one
`move_file` call, an interrupted run having begun one more call), exiting
130 on interrupt, 1 when an operation failed, 0 otherwise. -/
def resume_command (verify : Bool) (ioError : String → Bool) (fs : FS)
    (rp : ResumePoint) (k : Nat) : ResumeResult :=
  let pending := create_pending_operations rp
  if pending.isEmpty then ⟨fs, [], 0, 0⟩
  else
    let r := organize_move_loop verify ioError fs rp pending k
    ⟨r.fs, r.results, r.results.length + (if r.interrupted then 1 else 0),
      if r.interrupted then 130 else organize_exit_code r.results⟩

/-- The identity of an operation inside a plan: its source path paired with
its destination path (statuses and checksums evolve, the key does not). -/
def opKey (op : FileOperation) : String × String :=
  (op.source_file.path, op.destination_path)

/-- One step between consecutive persisted resume snapshots: either a
per-file update — the completed ledger grows by exactly the operation just
finished (the head of the previous pending ledger, as identified by its
key) and the pending ledger loses exactly that head — or an update that
changes neither ledger (the interrupt-handler update). -/
def store_step (a b : ResumePoint) : Prop :=
  (∃ op p rest, a.pending = p :: rest ∧ opKey op = opKey p ∧
      b.completed = a.completed ++ [op] ∧ b.pending = rest)
  ∨ (b.completed = a.completed ∧ b.pending = a.pending)

/-- The keys of a ledger, in order. -/
def ledgerKeys (l : List FileOperation) : List (String × String) :=
  l.map opKey

/-- The destination paths of a successfully built plan (empty on a
resolution error). -/
def planDestinations : Except String (List FileOperation) → List String
  | .error _ => []
  | .ok plan => plan.map fun op => op.destination_path

/-- Concrete two-file filesystem fixture: two distinct sources on disk. -/
def fsW : FS := fun p =>
  if p = "s/a.jpg" then some "ca" else if p = "s/b.jpg" then some "cb" else none

/-- Concrete pending operation moving `a.jpg`. -/
def opA : FileOperation :=
  ⟨⟨"s/a.jpg", "a.jpg"⟩, "t/a.jpg", .pending, none, none, none⟩

/-- Concrete pending operation moving `b.jpg`. -/
def opB : FileOperation :=
  ⟨⟨"s/b.jpg", "b.jpg"⟩, "t/b.jpg", .pending, none, none, none⟩

/-- An I/O fault model on which every write to `t/b.jpg` fails (a
permission error on that destination). -/
def badB : String → Bool := fun p => p == "t/b.jpg"

/-- Three source files that all carry the filename `photo.jpg` (the
situation of `test_duplicate_filenames_get_numbered`), with distinct
contents, and an empty target folder `t`. -/
def fsDup : FS := fun p =>
  if p = "s1/photo.jpg" then some "c1"
  else if p = "s2/photo.jpg" then some "c2"
  else if p = "s3/photo.jpg" then some "c3"
  else none

/-- The organization mapping the three same-named files to one folder. -/
def orgDup : List (String × List MediaFile) :=
  [("t", [⟨"s1/photo.jpg", "photo.jpg"⟩, ⟨"s2/photo.jpg", "photo.jpg"⟩,
          ⟨"s3/photo.jpg", "photo.jpg"⟩])]

/-- The seven transition edges the specification permits. -/
def specEdges : List (Status × Status) :=
  [(.pending, .copying), (.pending, .skipped), (.pending, .failed),
   (.copying, .verifying), (.copying, .failed),
   (.verifying, .completed), (.verifying, .failed)]

/-- C3: the only permitted status transitions are the seven listed edges;
`completed`, `failed` and `skipped` are exactly the terminal statuses; a
`transition_to` call that does not raise traversed a permitted edge; and on
a terminal operation `transition_to` to any status raises and leaves the
operation unchanged. -/
theorem fileOperation_state_machine :
    (∀ s s' : Status, (VALID_TRANSITIONS s).contains s' = true ↔ (s, s') ∈ specEdges)
    ∧ (∀ op : FileOperation,
        op.is_terminal = true ↔
          (op.status = .completed ∨ op.status = .failed ∨ op.status = .skipped))
    ∧ (∀ (op : FileOperation) (s' : Status) (e : Option String),
        (op.transition_to s' e).2 = .ok () → op.can_transition_to s' = true)
    ∧ (∀ (op : FileOperation) (s' : Status) (e : Option String),
        op.is_terminal = true →
          (op.transition_to s' e).1 = op ∧
          (op.transition_to s' e).2 = .error "Invalid transition") := by
  refine ⟨by decide, ?_, ?_, ?_⟩
  · intro op
    simp [FileOperation.is_terminal]
  · intro op s' e h
    by_contra hc
    rw [Bool.not_eq_true] at hc
    simp [FileOperation.transition_to, hc] at h
  · intro op s' e hterm
    have hcan : op.can_transition_to s' = false := by
      simp only [FileOperation.is_terminal, decide_eq_true_eq, Bool.or_eq_true] at hterm
      rcases hterm with h | h | h <;>
        simp [FileOperation.can_transition_to, VALID_TRANSITIONS, h]
    simp [FileOperation.transition_to, hcan]

/-- Witness for C3 at a concrete terminal operation: a `completed` operation
is terminal, and `transition_to` back to `pending` raises without mutating
it. -/
theorem fileOperation_state_machine_witness :
    ({ source_file := ⟨"a/x.jpg", "x.jpg"⟩, destination_path := "b/x.jpg",
       status := .completed, error_message := none,
       checksum_source := some "h1", checksum_dest := some "h1" } : FileOperation).is_terminal
        = true
    ∧ (({ source_file := ⟨"a/x.jpg", "x.jpg"⟩, destination_path := "b/x.jpg",
          status := .completed, error_message := none,
          checksum_source := some "h1", checksum_dest := some "h1" } : FileOperation).transition_to
            .pending none).1
        = { source_file := ⟨"a/x.jpg", "x.jpg"⟩, destination_path := "b/x.jpg",
            status := .completed, error_message := none,
            checksum_source := some "h1", checksum_dest := some "h1" }
    ∧ (({ source_file := ⟨"a/x.jpg", "x.jpg"⟩, destination_path := "b/x.jpg",
          status := .completed, error_message := none,
          checksum_source := some "h1", checksum_dest := some "h1" } : FileOperation).transition_to
            .pending none).2
        = .error "Invalid transition" := by
  refine ⟨by decide, ?_, ?_⟩
  · exact (fileOperation_state_machine.2.2.2 _ .pending none (by decide)).1
  · exact (fileOperation_state_machine.2.2.2 _ .pending none (by decide)).2

/-- C10 (implicit): a `verifying` operation with a missing (or unequal)
checksum pair may legally transition to `completed` according to
`can_transition_to`, yet `transition_to 'completed'` raises `ValueError`
from post-transition validation — and the exception is raised only after
`status` has already been mutated to `completed` (no rollback). -/
theorem transition_to_completed_mutates_before_validation
    (op : FileOperation)
    (hst : op.status = .verifying)
    (hck : strFalsy op.checksum_source = true ∨ strFalsy op.checksum_dest = true ∨
           op.checksum_source ≠ op.checksum_dest) :
    op.can_transition_to .completed = true
    ∧ (op.transition_to .completed none).1 = { op with status := .completed }
    ∧ ∃ e, (op.transition_to .completed none).2 = .error e := by
  have hcan : op.can_transition_to .completed = true := by
    simp [FileOperation.can_transition_to, VALID_TRANSITIONS, hst]
  refine ⟨hcan, ?_, ?_⟩
  · simp [FileOperation.transition_to, hcan]
  · simp only [FileOperation.transition_to, hcan, Bool.true_eq_false, if_false]
    simp only [show (Status.completed = Status.failed) = False by simp, false_and, if_false]
    rcases hck with h | h | h
    · exact ⟨"Both checksums required when status is 'completed'",
        by simp [FileOperation.validate, h]⟩
    · exact ⟨"Both checksums required when status is 'completed'",
        by simp [FileOperation.validate, h]⟩
    · by_cases h1 : strFalsy op.checksum_source = true
      · exact ⟨"Both checksums required when status is 'completed'",
          by simp [FileOperation.validate, h1]⟩
      · by_cases h2 : strFalsy op.checksum_dest = true
        · exact ⟨"Both checksums required when status is 'completed'",
            by simp [FileOperation.validate, h2]⟩
        · exact ⟨"Checksums must match when status is 'completed'",
            by simp [FileOperation.validate, h1, h2, h]⟩

/-- Witness for C10: a concrete `verifying` operation with no checksums can
transition to `completed` per `can_transition_to`, but `transition_to`
raises after mutating the status. -/
theorem transition_to_completed_mutates_witness :
    ({ source_file := ⟨"a/x.jpg", "x.jpg"⟩, destination_path := "b/x.jpg",
       status := .verifying, error_message := none,
       checksum_source := none, checksum_dest := none } : FileOperation).status = .verifying
    ∧ (({ source_file := ⟨"a/x.jpg", "x.jpg"⟩, destination_path := "b/x.jpg",
          status := .verifying, error_message := none,
          checksum_source := none, checksum_dest := none } : FileOperation).can_transition_to
            .completed = true
        ∧ (({ source_file := ⟨"a/x.jpg", "x.jpg"⟩, destination_path := "b/x.jpg",
              status := .verifying, error_message := none,
              checksum_source := none, checksum_dest := none } : FileOperation).transition_to
                .completed none).1
            = { source_file := ⟨"a/x.jpg", "x.jpg"⟩, destination_path := "b/x.jpg",
                status := .completed, error_message := none,
                checksum_source := none, checksum_dest := none }
        ∧ ∃ e, (({ source_file := ⟨"a/x.jpg", "x.jpg"⟩, destination_path := "b/x.jpg",
                   status := .verifying, error_message := none,
                   checksum_source := none, checksum_dest := none } : FileOperation).transition_to
                    .completed none).2 = .error e) :=
  ⟨rfl, transition_to_completed_mutates_before_validation _ rfl (Or.inl (by decide))⟩

theorem splitLastDot_append (cs : List Char) :
    ∀ s e, splitLastDot cs = some (s, e) → s ++ e = cs := by
  induction cs with
  | nil => intro s e h; simp [splitLastDot] at h
  | cons c cs ih =>
    intro s e h
    simp only [splitLastDot] at h
    cases h' : splitLastDot cs with
    | some se =>
      obtain ⟨s', e'⟩ := se
      rw [h'] at h
      simp only [Option.some.injEq, Prod.mk.injEq] at h
      obtain ⟨h1, h2⟩ := h
      subst h1
      subst h2
      simpa using ih s' e' h'
    | none =>
      simp only [h'] at h
      by_cases hc : c = '.'
      · rw [if_pos hc] at h
        simp only [Option.some.injEq, Prod.mk.injEq] at h
        obtain ⟨h1, h2⟩ := h
        subst h1
        subst h2
        simp [hc]
      · rw [if_neg hc] at h
        exact absurd h (by simp)

theorem splitLastDot_none (cs : List Char) :
    splitLastDot cs = none ↔ '.' ∉ cs := by
  induction cs with
  | nil => simp [splitLastDot]
  | cons c cs ih =>
    simp only [splitLastDot]
    cases h' : splitLastDot cs with
    | some se =>
      obtain ⟨s', e'⟩ := se
      constructor
      · intro h; simp at h
      · intro h
        exfalso
        have hcs : '.' ∉ cs := fun hm => h (List.mem_cons_of_mem c hm)
        rw [← ih] at hcs
        rw [h'] at hcs
        exact Option.noConfusion hcs
    | none =>
      have hcs : '.' ∉ cs := ih.mp h'
      by_cases hc : c = '.'
      · subst hc
        simp
      · rw [if_neg hc]
        simp only [List.mem_cons]
        constructor
        · intro _ hmem
          rcases hmem with hmem | hmem
          · exact hc hmem.symm
          · exact hcs hmem
        · intro _; trivial

theorem splitLastDot_ext (cs : List Char) :
    ∀ s e, splitLastDot cs = some (s, e) → ∃ e', e = '.' :: e' ∧ '.' ∉ e' := by
  induction cs with
  | nil => intro s e h; simp [splitLastDot] at h
  | cons c cs ih =>
    intro s e h
    simp only [splitLastDot] at h
    cases h' : splitLastDot cs with
    | some se =>
      obtain ⟨s', e'⟩ := se
      rw [h'] at h
      simp only [Option.some.injEq, Prod.mk.injEq] at h
      obtain ⟨h1, h2⟩ := h
      subst h2
      exact ih _ _ h'
    | none =>
      simp only [h'] at h
      by_cases hc : c = '.'
      · rw [if_pos hc] at h
        simp only [Option.some.injEq, Prod.mk.injEq] at h
        obtain ⟨h1, h2⟩ := h
        subst h2
        exact ⟨cs, rfl, (splitLastDot_none cs).mp h'⟩
      · rw [if_neg hc] at h
        exact absurd h (by simp)

theorem probeLoop_first (ex : String → Bool) (stem ext : String) :
    ∀ fuel i j, i ≤ j → j < i + fuel →
      ex (candName stem ext j) = false →
      (∀ m, i ≤ m → m < j → ex (candName stem ext m) = true) →
      probeLoop ex stem ext i fuel = .ok (candName stem ext j) := by
  intro fuel
  induction fuel with
  | zero =>
    intro i j h1 h2 _ _
    exact absurd h2 (by omega)
  | succ fuel ih =>
    intro i j h1 h2 hj hall
    by_cases hij : i = j
    · subst hij
      simp [probeLoop, hj]
    · have hi : ex (candName stem ext i) = true := hall i le_rfl (by omega)
      simp only [probeLoop, hi, if_pos]
      exact ih (i + 1) j (by omega) (by omega) hj fun m hm1 hm2 => hall m (by omega) hm2

theorem probeLoop_all (ex : String → Bool) (stem ext : String) :
    ∀ fuel i, (∀ j, i ≤ j → j < i + fuel → ex (candName stem ext j) = true) →
      probeLoop ex stem ext i fuel = .error "Too many duplicates" := by
  intro fuel
  induction fuel with
  | zero => intro i _; simp [probeLoop]
  | succ fuel ih =>
    intro i h
    have hi : ex (candName stem ext i) = true := h i le_rfl (by omega)
    simp only [probeLoop, hi, if_pos]
    exact ih (i + 1) fun j hj1 hj2 => h j (by omega) (by omega)

/-- C4: the increment resolver splits the filename into stem and extension
at the last dot (stem and extension reassemble to the filename, the
extension is either empty or a final dot-segment containing no further dot);
outside dry-run it returns the original name when no file of that name
exists; otherwise it returns the first of `stem_1.ext`, `stem_2.ext`, …
that does not exist; and for a target folder containing exactly
`{photo.jpg, photo_1.jpg}`, resolving `photo.jpg` yields `photo_2.jpg`. -/
theorem increment_resolution :
    (∀ name : String,
        (splitStemExt name).1 ++ (splitStemExt name).2 = name
        ∧ ((splitStemExt name).2 ≠ "" →
            ∃ e', (splitStemExt name).2.toList = '.' :: e' ∧ '.' ∉ e')
        ∧ ('.' ∉ name.toList → splitStemExt name = (name, "")))
    ∧ (∀ (ex : String → Bool) (name : String), ex name = false →
        get_destination_name .increment false ex name = .ok name)
    ∧ (∀ (ex : String → Bool) (name : String) (j : Nat), ex name = true →
        1 ≤ j → j < 1 + MAX_DUPLICATES →
        ex (candName (splitStemExt name).1 (splitStemExt name).2 j) = false →
        (∀ m, 1 ≤ m → m < j →
          ex (candName (splitStemExt name).1 (splitStemExt name).2 m) = true) →
        get_destination_name .increment false ex name
          = .ok (candName (splitStemExt name).1 (splitStemExt name).2 j))
    ∧ get_destination_name .increment false
        (fun n => n == "photo.jpg" || n == "photo_1.jpg") "photo.jpg"
        = .ok "photo_2.jpg" := by
  refine ⟨?_, ?_, ?_, ?_⟩
  · intro name
    refine ⟨?_, ?_, ?_⟩
    · unfold splitStemExt
      cases h : splitLastDot name.toList with
      | none => simp
      | some se =>
        obtain ⟨s, e⟩ := se
        have := splitLastDot_append name.toList s e h
        show String.mk s ++ String.mk e = name
        calc String.mk s ++ String.mk e = String.mk (s ++ e) := rfl
          _ = String.mk name.toList := by rw [this]
          _ = name := rfl
    · intro hne
      unfold splitStemExt
      cases h : splitLastDot name.toList with
      | none =>
        exfalso
        apply hne
        unfold splitStemExt
        rw [h]
      | some se =>
        obtain ⟨s, e⟩ := se
        obtain ⟨e', he, hmem⟩ := splitLastDot_ext name.toList s e h
        subst he
        exact ⟨e', rfl, hmem⟩
    · intro hnd
      unfold splitStemExt
      cases h : splitLastDot name.toList with
      | none => rfl
      | some se =>
        obtain ⟨s, e⟩ := se
        obtain ⟨e', he, _⟩ := splitLastDot_ext name.toList s e h
        exfalso
        have happ := splitLastDot_append name.toList s e h
        apply hnd
        rw [← happ, he]
        exact List.mem_append_right s (List.mem_cons_self '.' e')
  · intro ex name h
    simp [get_destination_name, h]
  · intro ex name j hname hj1 hj2 hjf hall
    simp only [get_destination_name, Bool.false_eq_true, if_false, hname, if_true]
    exact probeLoop_first ex _ _ MAX_DUPLICATES 1 j hj1 hj2 hjf hall
  · rfl

/-- Witness for C4: in the folder `{photo.jpg, photo_1.jpg}` the name
`photo.jpg` exists, the probe candidate with index 2 does not while the one
with index 1 does, and resolution yields exactly that second candidate. -/
theorem increment_resolution_witness :
    ((fun n => n == "photo.jpg" || n == "photo_1.jpg") "photo.jpg" = true)
    ∧ ((fun n => n == "photo.jpg" || n == "photo_1.jpg")
        (candName (splitStemExt "photo.jpg").1 (splitStemExt "photo.jpg").2 2) = false)
    ∧ get_destination_name .increment false
        (fun n => n == "photo.jpg" || n == "photo_1.jpg") "photo.jpg"
        = .ok (candName (splitStemExt "photo.jpg").1 (splitStemExt "photo.jpg").2 2) :=
  ⟨rfl, by decide, increment_resolution.2.2.1 _ _ 2 rfl (by omega) (by decide) (by decide)
    (by
      intro m h1 h2
      have hm : m = 1 := by omega
      subst hm
      decide)⟩

/-- C9: the increment probe loop is capped at `MAX_DUPLICATES`: when every
probed candidate up to the cap exists, resolution returns the fatal
"Too many duplicates" error instead of looping; a resolution error for a
file aborts plan building with that error; and a plan-building error makes
the move phase execute nothing — filesystem untouched, no operation run, no
resume snapshot written, exit code 1 — so the file's move operation never
starts. -/
theorem duplicate_probe_bounded :
    (∀ (ex : String → Bool) (name : String),
        ex name = true →
        (∀ j, 1 ≤ j → j ≤ MAX_DUPLICATES →
          ex (candName (splitStemExt name).1 (splitStemExt name).2 j) = true) →
        get_destination_name .increment false ex name = .error "Too many duplicates")
    ∧ (∀ (dup : DuplicateHandling) (fs : FS) (folder : String) (mf : MediaFile)
        (more : List MediaFile) (e : String),
        get_destination_path dup false (fun p => (fs p).isSome) folder mf.filename
          = .error e →
        build_folder_operations dup fs folder (mf :: more) = .error e)
    ∧ (∀ (verify : Bool) (ioError : String → Bool) (dup : DuplicateHandling)
        (fs : FS) (org : List (String × List MediaFile)) (k : Nat) (e : String),
        build_file_operations dup fs org = .error e →
        organize_move_phase verify ioError dup fs org k = ⟨fs, [], [], 1⟩) := by
  refine ⟨?_, ?_, ?_⟩
  · intro ex name hname hall
    simp only [get_destination_name, Bool.false_eq_true, if_false, hname, if_true]
    exact probeLoop_all ex _ _ MAX_DUPLICATES 1 fun j hj1 hj2 => hall j hj1 (by omega)
  · intro dup fs folder mf more e h
    unfold build_folder_operations
    rw [h]
    rfl
  · intro verify ioError dup fs org k e h
    unfold organize_move_phase
    rw [h]

/-- Witness for C9: with an existence oracle reporting every path as
present (the situation `test_get_destination_path_increment_safety_limit`
mocks), resolution of `photo.jpg` with the increment policy ends in the
fatal "Too many duplicates" error. -/
theorem duplicate_probe_bounded_witness :
    ((fun _ : String => true) "photo.jpg" = true)
    ∧ get_destination_name .increment false (fun _ => true) "photo.jpg"
        = .error "Too many duplicates" :=
  ⟨rfl, duplicate_probe_bounded.1 (fun _ => true) "photo.jpg" rfl fun _ _ _ => rfl⟩

theorem move_single_file_dry (verify : Bool) (ioError : String → Bool)
    (dup : DuplicateHandling) (fs : FS) (folder : String) (mf : MediaFile) :
    move_single_file verify ioError dup true fs folder mf
      = (fs, .ok { source_file := mf,
                   destination_path := joinPath folder mf.filename,
                   status := .skipped, error_message := none,
                   checksum_source := none, checksum_dest := none }) := rfl

theorem move_folder_files_dry (verify : Bool) (ioError : String → Bool)
    (dup : DuplicateHandling) :
    ∀ (files : List MediaFile) (fs : FS) (folder : String),
      ∃ ops, move_folder_files verify ioError dup true fs folder files = (fs, .ok ops)
        ∧ ∀ op ∈ ops, op.status = .skipped := by
  intro files
  induction files with
  | nil => exact fun fs folder => ⟨[], rfl, by simp⟩
  | cons mf rest ih =>
    intro fs folder
    obtain ⟨ops, hp, h3⟩ := ih fs folder
    refine ⟨{ source_file := mf, destination_path := joinPath folder mf.filename,
              status := .skipped, error_message := none, checksum_source := none,
              checksum_dest := none } :: ops, ?_, ?_⟩
    · unfold move_folder_files
      simp only [move_single_file_dry, hp]
    · intro op hop
      rcases List.mem_cons.mp hop with hop | hop
      · subst hop; rfl
      · exact h3 op hop

theorem move_files_dry (verify : Bool) (ioError : String → Bool)
    (dup : DuplicateHandling) :
    ∀ (org : List (String × List MediaFile)) (fs : FS),
      ∃ ops, move_files verify ioError dup true fs org = (fs, .ok ops)
        ∧ ∀ op ∈ ops, op.status = .skipped := by
  intro org
  induction org with
  | nil => exact fun fs => ⟨[], rfl, by simp⟩
  | cons entry rest ih =>
    intro fs
    obtain ⟨folder, files⟩ := entry
    obtain ⟨ops, hp, h3⟩ := move_folder_files_dry verify ioError dup files fs folder
    obtain ⟨more, hq, g3⟩ := ih fs
    refine ⟨ops ++ more, ?_, ?_⟩
    · unfold move_files
      simp only [hp, hq]
    · intro op hop
      rcases List.mem_append.mp hop with hop | hop
      · exact h3 op hop
      · exact g3 op hop

/-- C5: dry-run is a no-op: the resolver in dry-run mode always returns the
un-incremented original filename under any policy and any existence oracle;
running the mover over any plan with dry-run enabled leaves the filesystem
unchanged and yields only `skipped` operations; and the `organize` command
in dry-run mode returns exit code 0 before the move phase — no operation
executed, no resume snapshot written, filesystem untouched. -/
theorem dry_run_no_op :
    (∀ (dup : DuplicateHandling) (ex : String → Bool) (name : String),
        get_destination_name dup true ex name = .ok name)
    ∧ (∀ (verify : Bool) (ioError : String → Bool) (dup : DuplicateHandling)
        (fs : FS) (org : List (String × List MediaFile)),
        ∃ ops, move_files verify ioError dup true fs org = (fs, .ok ops)
          ∧ ∀ op ∈ ops, op.status = .skipped)
    ∧ (∀ (verify : Bool) (ioError : String → Bool) (dup : DuplicateHandling)
        (fs : FS) (org : List (String × List MediaFile)) (k : Nat),
        organize_command verify ioError dup true fs org k = ⟨fs, [], [], 0⟩) :=
  ⟨fun _ _ _ => rfl,
   fun verify ioError dup fs org => move_files_dry verify ioError dup org fs,
   fun _ _ _ _ _ _ => rfl⟩

/-- C7: resuming a `ResumePoint` whose pending list is empty performs zero
file move operations and returns immediately with exit code 0 — the
filesystem is untouched, no operation result is produced and `move_file` is
never invoked. -/
theorem resume_empty_pending (verify : Bool) (ioError : String → Bool)
    (fs : FS) (rp : ResumePoint) (k : Nat) (h : rp.pending = []) :
    resume_command verify ioError fs rp k = ⟨fs, [], 0, 0⟩ := by
  unfold resume_command create_pending_operations
  rw [h]
  rfl

/-- Witness for C7 at a concrete resume point with one completed operation
and no pending ones. -/
theorem resume_empty_pending_witness :
    (ResumePoint.mk
        [{ source_file := ⟨"a/x.jpg", "x.jpg"⟩, destination_path := "b/x.jpg",
           status := .completed, error_message := none,
           checksum_source := some "h1", checksum_dest := some "h1" }] []).pending = []
    ∧ resume_command true (fun _ => false) (fun _ => none)
        (ResumePoint.mk
          [{ source_file := ⟨"a/x.jpg", "x.jpg"⟩, destination_path := "b/x.jpg",
             status := .completed, error_message := none,
             checksum_source := some "h1", checksum_dest := some "h1" }] []) 3
        = ⟨fun _ => none, [], 0, 0⟩ :=
  ⟨rfl, resume_empty_pending true (fun _ => false) (fun _ => none) _ 3 rfl⟩

theorem transition_to_source (op : FileOperation) (s : Status) (e : Option String) :
    (op.transition_to s e).1.source_file = op.source_file := by
  unfold FileOperation.transition_to
  split
  · rfl
  · dsimp only
    split
    · rfl
    · rfl

theorem transition_to_dest (op : FileOperation) (s : Status) (e : Option String) :
    (op.transition_to s e).1.destination_path = op.destination_path := by
  unfold FileOperation.transition_to
  split
  · rfl
  · dsimp only
    split
    · rfl
    · rfl

theorem transition_to_checksum_source (op : FileOperation) (s : Status) (e : Option String) :
    (op.transition_to s e).1.checksum_source = op.checksum_source := by
  unfold FileOperation.transition_to
  split
  · rfl
  · dsimp only
    split
    · rfl
    · rfl

theorem transition_to_checksum_dest (op : FileOperation) (s : Status) (e : Option String) :
    (op.transition_to s e).1.checksum_dest = op.checksum_dest := by
  unfold FileOperation.transition_to
  split
  · rfl
  · dsimp only
    split
    · rfl
    · rfl

theorem transition_to_status {op : FileOperation} {s : Status} (e : Option String)
    (h : op.can_transition_to s = true) : (op.transition_to s e).1.status = s := by
  unfold FileOperation.transition_to
  rw [if_neg (by rw [h]; exact fun hc => Bool.noConfusion hc)]
  dsimp only
  split
  · rfl
  · rfl

theorem can_transition_of_status {op : FileOperation} {s s' : Status} (h : op.status = s)
    (hmem : (VALID_TRANSITIONS s).contains s' = true) : op.can_transition_to s' = true := by
  unfold FileOperation.can_transition_to
  rw [h]
  exact hmem

theorem FS.write_ne (fs : FS) (p c q : String) (h : q ≠ p) : fs.write p c q = fs q := by
  simp [FS.write, h]

theorem FS.remove_ne (fs : FS) (p q : String) (h : q ≠ p) : fs.remove p q = fs q := by
  simp [FS.remove, h]

theorem move_file_opKey (verify : Bool) (ioError : String → Bool) (fs : FS)
    (op : FileOperation) : opKey (move_file verify ioError fs op).2 = opKey op := by
  unfold move_file
  split
  · dsimp only
    split
    · simp [opKey, transition_to_source, transition_to_dest]
    · split
      · simp [opKey, transition_to_source, transition_to_dest]
      · split
        · split
          · simp [opKey, transition_to_source, transition_to_dest]
          · simp [opKey, transition_to_source, transition_to_dest]
        · simp [opKey, transition_to_source, transition_to_dest]
  · rfl

theorem move_file_frame (verify : Bool) (ioError : String → Bool) (fs : FS)
    (op : FileOperation) (p : String) (hs : p ≠ op.source_file.path)
    (hd : p ≠ op.destination_path) :
    (move_file verify ioError fs op).1 p = fs p := by
  unfold move_file
  split
  · dsimp only
    simp only [transition_to_source, transition_to_dest]
    split
    · rfl
    · split
      · rfl
      · split
        · split
          · simp only [transition_to_source, transition_to_dest]
            rw [FS.remove_ne _ _ _ hs, FS.write_ne _ _ _ _ hd]
          · exact FS.write_ne _ _ _ _ hd
        · simp only [transition_to_source, transition_to_dest]
          rw [FS.remove_ne _ _ _ hs, FS.write_ne _ _ _ _ hd]
  · rfl

theorem transition_completed_status (mf : MediaFile) (d : String)
    (em a b : Option String) :
    ((({ source_file := mf, destination_path := d, status := .verifying,
         error_message := em, checksum_source := a,
         checksum_dest := b } : FileOperation).transition_to .completed none).1).status
      = .completed :=
  transition_to_status none
    (@can_transition_of_status
      { source_file := mf, destination_path := d, status := .verifying,
        error_message := em, checksum_source := a, checksum_dest := b }
      Status.verifying Status.completed rfl (by decide))

theorem move_file_source (verify : Bool) (ioError : String → Bool) (fs : FS)
    (op : FileOperation) :
    (move_file verify ioError fs op).2.status ≠ .completed →
    (move_file verify ioError fs op).1 op.source_file.path = fs op.source_file.path := by
  intro hne
  by_cases hpend : op.status = .pending
  · have h1 : (op.transition_to .copying none).1.status = .copying :=
      transition_to_status none (can_transition_of_status hpend (by decide))
    have h2 : ((op.transition_to .copying none).1.transition_to .verifying none).1.status
        = .verifying :=
      transition_to_status none (can_transition_of_status h1 (by decide))
    unfold move_file at hne ⊢
    rw [if_pos hpend] at hne ⊢
    dsimp only at hne ⊢
    simp only [transition_to_source, transition_to_dest] at hne ⊢
    cases heq : fs op.source_file.path with
    | none => simp only [heq] at hne ⊢
    | some content =>
      simp only [heq] at hne ⊢
      by_cases hio : ioError op.destination_path = true
      · simp only [hio, heq, if_true] at hne ⊢
      · rw [Bool.not_eq_true] at hio
        simp only [hio, Bool.false_eq_true, if_false] at hne ⊢
        by_cases hv : verify = true
        · simp only [hv, if_true, FS.write, if_pos rfl, Option.getD_some] at hne ⊢
          exfalso
          rw [h2] at hne
          exact hne (transition_completed_status _ _ _ _ _)
        · rw [Bool.not_eq_true] at hv
          simp only [hv, Bool.false_eq_true, if_false] at hne ⊢
          exfalso
          rw [h2] at hne
          exact hne (transition_completed_status _ _ _ _ _)
  · unfold move_file
    rw [if_neg hpend]

theorem move_file_completed_checksums (verify : Bool) (ioError : String → Bool)
    (fs : FS) (op : FileOperation) (hpend : op.status = .pending) :
    (move_file verify ioError fs op).2.status = .completed →
    ∃ h, (move_file verify ioError fs op).2.checksum_source = some h
      ∧ (move_file verify ioError fs op).2.checksum_dest = some h := by
  intro hcomp
  have h1 : (op.transition_to .copying none).1.status = .copying :=
    transition_to_status none (can_transition_of_status hpend (by decide))
  unfold move_file at hcomp ⊢
  rw [if_pos hpend] at hcomp ⊢
  dsimp only at hcomp ⊢
  simp only [transition_to_source, transition_to_dest] at hcomp ⊢
  cases heq : fs op.source_file.path with
  | none =>
    simp only [heq] at hcomp
    rw [transition_to_status (some "Copy failed: source file not found")
      (can_transition_of_status h1 (by decide))] at hcomp
    exact Status.noConfusion hcomp
  | some content =>
    simp only [heq] at hcomp ⊢
    by_cases hio : ioError op.destination_path = true
    · simp only [hio, if_true] at hcomp
      rw [transition_to_status (some "Copy failed: permission denied")
        (can_transition_of_status h1 (by decide))] at hcomp
      exact Status.noConfusion hcomp
    · rw [Bool.not_eq_true] at hio
      simp only [hio, Bool.false_eq_true, if_false] at hcomp ⊢
      by_cases hv : verify = true
      · simp only [hv, if_true, FS.write, if_pos rfl, Option.getD_some] at hcomp ⊢
        exact ⟨hashContent content,
          by simp [transition_to_checksum_source], by simp [transition_to_checksum_dest]⟩
      · rw [Bool.not_eq_true] at hv
        simp only [hv, Bool.false_eq_true, if_false] at hcomp ⊢
        exact ⟨"skipped",
          by simp [transition_to_checksum_source], by simp [transition_to_checksum_dest]⟩

theorem organize_move_loop_frame (verify : Bool) (ioError : String → Bool) :
    ∀ (plan : List FileOperation) (k : Nat) (fs : FS) (rp : ResumePoint) (p : String),
      (∀ op ∈ plan, op.source_file.path ≠ p ∧ op.destination_path ≠ p) →
      (organize_move_loop verify ioError fs rp plan k).fs p = fs p := by
  intro plan
  induction plan with
  | nil => intro k fs rp p _; rfl
  | cons op rest ih =>
    intro k fs rp p hall
    cases k with
    | zero => rfl
    | succ k =>
      show (organize_move_loop verify ioError (move_file verify ioError fs op).1
          (update_resume_point rp (some (move_file verify ioError fs op).2) rest) rest k).fs p
        = fs p
      rw [ih k _ _ p fun o ho => hall o (List.mem_cons_of_mem op ho)]
      obtain ⟨h1, h2⟩ := hall op (List.mem_cons_self op rest)
      exact move_file_frame verify ioError fs op p (Ne.symm h1) (Ne.symm h2)

theorem organize_move_loop_results_keys (verify : Bool) (ioError : String → Bool) :
    ∀ (plan : List FileOperation) (k : Nat) (fs : FS) (rp : ResumePoint),
      ∀ o ∈ (organize_move_loop verify ioError fs rp plan k).results,
        ∃ op ∈ plan, opKey o = opKey op := by
  intro plan
  induction plan with
  | nil => intro k fs rp o ho; exact absurd ho (by simp [organize_move_loop])
  | cons op rest ih =>
    intro k fs rp o ho
    cases k with
    | zero => exact absurd ho (by simp [organize_move_loop])
    | succ k =>
      have ho' : o ∈ (move_file verify ioError fs op).2 ::
          (organize_move_loop verify ioError (move_file verify ioError fs op).1
            (update_resume_point rp (some (move_file verify ioError fs op).2) rest)
            rest k).results := ho
      rcases List.mem_cons.mp ho' with rfl | hmem
      · exact ⟨op, List.mem_cons_self _ _, move_file_opKey _ _ _ _⟩
      · obtain ⟨op', hmem', hk⟩ := ih k _ _ o hmem
        exact ⟨op', List.mem_cons_of_mem _ hmem', hk⟩

theorem organize_move_loop_full (verify : Bool) (ioError : String → Bool) :
    ∀ (plan : List FileOperation) (k : Nat) (fs : FS) (rp : ResumePoint),
      (organize_move_loop verify ioError fs rp plan k).results.length = plan.length →
      (organize_move_loop verify ioError fs rp plan k).interrupted = false := by
  intro plan
  induction plan with
  | nil => intro k fs rp _; rfl
  | cons op rest ih =>
    intro k fs rp hlen
    cases k with
    | zero =>
      exfalso
      have h0 : (0 : Nat) = rest.length + 1 := hlen
      omega
    | succ k =>
      have hlen' : (organize_move_loop verify ioError (move_file verify ioError fs op).1
          (update_resume_point rp (some (move_file verify ioError fs op).2) rest)
          rest k).results.length + 1 = rest.length + 1 := hlen
      exact ih k _ _ (by omega)

theorem organize_move_loop_store (verify : Bool) (ioError : String → Bool) :
    ∀ (plan : List FileOperation) (k : Nat) (fs : FS) (rp : ResumePoint),
      rp.pending = plan →
      (∀ s ∈ (organize_move_loop verify ioError fs rp plan k).snaps,
          ledgerKeys s.completed ++ ledgerKeys s.pending
            = ledgerKeys rp.completed ++ ledgerKeys rp.pending)
      ∧ List.Chain' store_step (rp :: (organize_move_loop verify ioError fs rp plan k).snaps) := by
  intro plan
  induction plan with
  | nil =>
    intro k fs rp _
    refine ⟨?_, ?_⟩
    · intro s hs
      exact absurd hs (by simp [organize_move_loop])
    · simp [organize_move_loop]
  | cons op rest ih =>
    intro k fs rp hp
    cases k with
    | zero =>
      have hupd : update_resume_point rp none (op :: rest) = rp := by
        obtain ⟨c, p⟩ := rp
        have hp' : p = op :: rest := hp
        unfold update_resume_point
        rw [hp']
      refine ⟨?_, ?_⟩
      · intro s hs
        have hs' : s ∈ [update_resume_point rp none (op :: rest)] := hs
        rcases List.mem_singleton.mp hs' with rfl
        rw [hupd]
      · have hch : List.Chain' store_step [rp, update_resume_point rp none (op :: rest)] := by
          rw [hupd]
          exact List.chain'_pair.mpr (Or.inr ⟨rfl, rfl⟩)
        exact hch
    | succ k =>
      obtain ⟨ih1, ih2⟩ := ih k (move_file verify ioError fs op).1
        (update_resume_point rp (some (move_file verify ioError fs op).2) rest) rfl
      have hkey : opKey (move_file verify ioError fs op).2 = opKey op :=
        move_file_opKey _ _ _ _
      have hrel :
          ledgerKeys (update_resume_point rp (some (move_file verify ioError fs op).2)
              rest).completed
            ++ ledgerKeys (update_resume_point rp (some (move_file verify ioError fs op).2)
              rest).pending
          = ledgerKeys rp.completed ++ ledgerKeys rp.pending := by
        show ledgerKeys (rp.completed ++ [(move_file verify ioError fs op).2])
            ++ ledgerKeys rest = ledgerKeys rp.completed ++ ledgerKeys rp.pending
        rw [hp]
        simp [ledgerKeys, hkey]
      refine ⟨?_, ?_⟩
      · intro s hs
        have hs' : s ∈ (update_resume_point rp (some (move_file verify ioError fs op).2) rest) ::
            (organize_move_loop verify ioError (move_file verify ioError fs op).1
              (update_resume_point rp (some (move_file verify ioError fs op).2) rest)
              rest k).snaps := hs
        rcases List.mem_cons.mp hs' with rfl | hmem
        · exact hrel
        · rw [ih1 s hmem]
          exact hrel
      · refine List.Chain'.cons ?_ ih2
        left
        exact ⟨(move_file verify ioError fs op).2, op, rest, hp, hkey, rfl, rfl⟩

/-- C6: after every resume-point update written by the orchestrator's move
phase — the initial update carrying the whole plan, each per-file update and
the update written on interrupt — the keys (source path, destination path)
of the completed ledger followed by those of the pending ledger are exactly
the keys of the full original plan (no operation dropped); and between
consecutive snapshots either the completed ledger grows by exactly the
just-finished operation (the head of the previous pending ledger) while the
pending ledger loses exactly that head, or both ledgers are unchanged (the
interrupt update). -/
theorem resume_store_invariant (verify : Bool) (ioError : String → Bool)
    (dup : DuplicateHandling) (fs : FS) (org : List (String × List MediaFile))
    (k : Nat) (plan : List FileOperation)
    (hb : build_file_operations dup fs org = .ok plan) :
    (∀ s ∈ (organize_move_phase verify ioError dup fs org k).snaps,
        ledgerKeys s.completed ++ ledgerKeys s.pending = ledgerKeys plan)
    ∧ List.Chain' store_step (organize_move_phase verify ioError dup fs org k).snaps := by
  obtain ⟨l1, l2⟩ := organize_move_loop_store verify ioError plan k fs
    (update_resume_point ⟨[], []⟩ none plan) rfl
  constructor
  · intro s hs
    have hs' : s ∈ (update_resume_point ⟨[], []⟩ none plan) ::
        (organize_move_loop verify ioError fs (update_resume_point ⟨[], []⟩ none plan)
          plan k).snaps := by
      simpa [organize_move_phase, hb] using hs
    rcases List.mem_cons.mp hs' with rfl | hmem
    · rfl
    · rw [l1 s hmem]
      rfl
  · have hch : List.Chain' store_step ((update_resume_point ⟨[], []⟩ none plan) ::
        (organize_move_loop verify ioError fs (update_resume_point ⟨[], []⟩ none plan)
          plan k).snaps) := l2
    simpa [organize_move_phase, hb] using hch

/-- Witness for C6 at a concrete one-file plan. -/
theorem resume_store_invariant_witness :
    build_file_operations .increment
        (fun p => if p = "s/x.jpg" then some "c" else none) [("t", [⟨"s/x.jpg", "x.jpg"⟩])]
      = .ok [⟨⟨"s/x.jpg", "x.jpg"⟩, "t/x.jpg", .pending, none, none, none⟩]
    ∧ ((∀ s ∈ (organize_move_phase true (fun _ => false) .increment
          (fun p => if p = "s/x.jpg" then some "c" else none)
          [("t", [⟨"s/x.jpg", "x.jpg"⟩])] 5).snaps,
        ledgerKeys s.completed ++ ledgerKeys s.pending
          = ledgerKeys [⟨⟨"s/x.jpg", "x.jpg"⟩, "t/x.jpg", .pending, none, none, none⟩])
      ∧ List.Chain' store_step (organize_move_phase true (fun _ => false) .increment
          (fun p => if p = "s/x.jpg" then some "c" else none)
          [("t", [⟨"s/x.jpg", "x.jpg"⟩])] 5).snaps) :=
  ⟨rfl, resume_store_invariant true (fun _ => false) .increment
    (fun p => if p = "s/x.jpg" then some "c" else none) [("t", [⟨"s/x.jpg", "x.jpg"⟩])] 5
    [⟨⟨"s/x.jpg", "x.jpg"⟩, "t/x.jpg", .pending, none, none, none⟩] rfl⟩

theorem organize_exit_code_pos (operations : List FileOperation)
    (h : ∃ op ∈ operations, op.status = .failed) : organize_exit_code operations = 1 := by
  obtain ⟨op, hmem, hst⟩ := h
  have hmemf : op ∈ operations.filter fun o => o.status == .failed :=
    List.mem_filter.mpr ⟨hmem, by simp [hst]⟩
  unfold organize_exit_code
  rw [if_pos (List.length_pos_of_mem hmemf)]

theorem organize_exit_code_zero (operations : List FileOperation)
    (h : ∀ op ∈ operations, op.status ≠ .failed) : organize_exit_code operations = 0 := by
  have hfil : operations.filter (fun o => o.status == .failed) = [] := by
    rw [List.filter_eq_nil_iff]
    intro a ha
    simp [h a ha]
  unfold organize_exit_code
  rw [hfil]
  rfl

/-- C8: the exit status of a run: when at least one operation of the run
ended in status `failed`, the exit code is non-zero (130 on an interrupted
run, 1 otherwise); when every planned operation was executed and all ended
terminal and non-failed, the exit code is 0. -/
theorem failure_exit_status :
    (∀ operations : List FileOperation,
        ((∃ op ∈ operations, op.status = .failed) → organize_exit_code operations = 1)
        ∧ ((∀ op ∈ operations, op.is_terminal = true ∧ op.status ≠ .failed) →
            organize_exit_code operations = 0))
    ∧ (∀ (verify : Bool) (ioError : String → Bool) (dup : DuplicateHandling) (fs : FS)
        (org : List (String × List MediaFile)) (k : Nat),
        (∃ op ∈ (organize_move_phase verify ioError dup fs org k).results,
            op.status = .failed) →
        (organize_move_phase verify ioError dup fs org k).exit_code ≠ 0)
    ∧ (∀ (verify : Bool) (ioError : String → Bool) (dup : DuplicateHandling) (fs : FS)
        (org : List (String × List MediaFile)) (k : Nat) (plan : List FileOperation),
        build_file_operations dup fs org = .ok plan →
        (organize_move_phase verify ioError dup fs org k).results.length = plan.length →
        (∀ op ∈ (organize_move_phase verify ioError dup fs org k).results,
            op.is_terminal = true ∧ op.status ≠ .failed) →
        (organize_move_phase verify ioError dup fs org k).exit_code = 0) := by
  refine ⟨?_, ?_, ?_⟩
  · intro operations
    exact ⟨organize_exit_code_pos operations,
      fun h => organize_exit_code_zero operations fun op hop => (h op hop).2⟩
  · intro verify ioError dup fs org k hex
    cases hb : build_file_operations dup fs org with
    | error e =>
      exfalso
      obtain ⟨op, hmem, _⟩ := hex
      rw [show (organize_move_phase verify ioError dup fs org k).results = [] from by
        simp [organize_move_phase, hb]] at hmem
      exact absurd hmem (by simp)
    | ok plan =>
      simp only [organize_move_phase, hb] at hex ⊢
      by_cases hi : (organize_move_loop verify ioError fs
          (update_resume_point ⟨[], []⟩ none plan) plan k).interrupted = true
      · rw [if_pos hi]
        omega
      · rw [if_neg hi, organize_exit_code_pos _ hex]
        omega
  · intro verify ioError dup fs org k plan hb hlen hall
    simp only [organize_move_phase, hb] at hlen hall ⊢
    have hi := organize_move_loop_full verify ioError plan k fs
      (update_resume_point ⟨[], []⟩ none plan) hlen
    rw [if_neg (by simp [hi])]
    exact organize_exit_code_zero _ fun op hop => (hall op hop).2

/-- Witness for C8: a concrete one-file run whose destination write fails
produces a `failed` operation and a non-zero exit code. -/
theorem failure_exit_status_witness :
    (∃ op ∈ (organize_move_phase true (fun p => p == "t/x.jpg") .increment
        (fun p => if p = "s/x.jpg" then some "c" else none)
        [("t", [⟨"s/x.jpg", "x.jpg"⟩])] 5).results, op.status = .failed)
    ∧ (organize_move_phase true (fun p => p == "t/x.jpg") .increment
        (fun p => if p = "s/x.jpg" then some "c" else none)
        [("t", [⟨"s/x.jpg", "x.jpg"⟩])] 5).exit_code ≠ 0 :=
  ⟨by decide, failure_exit_status.2.1 _ _ _ _ _ _ (by decide)⟩

/-- C1: no data loss.  For a well-formed plan (all operations pending,
pairwise distinct source paths, no destination equal to any source), after
running the move loop — to completion, with per-file failures, or
interrupted after any number of files — every operation that did not reach
status `completed` (executed or not) still has its source file unchanged on
disk; and a source is deleted only through the `completed` path, on which
the recorded checksums are present and equal (the verification-policy
confirmation: real hashes under verification, the explicit sentinel
otherwise). -/
theorem no_data_loss (verify : Bool) (ioError : String → Bool) :
    ∀ (plan : List FileOperation) (k : Nat) (fs : FS) (rp : ResumePoint),
      (∀ op ∈ plan, op.status = .pending) →
      (plan.map fun op => op.source_file.path).Nodup →
      (∀ op1 ∈ plan, ∀ op2 ∈ plan, op1.destination_path ≠ op2.source_file.path) →
      (∀ op ∈ (organize_move_loop verify ioError fs rp plan k).results
            ++ plan.drop (organize_move_loop verify ioError fs rp plan k).results.length,
          op.status ≠ .completed →
          (organize_move_loop verify ioError fs rp plan k).fs op.source_file.path
            = fs op.source_file.path)
      ∧ (∀ op ∈ (organize_move_loop verify ioError fs rp plan k).results,
          op.status = .completed →
          ∃ h, op.checksum_source = some h ∧ op.checksum_dest = some h) := by
  intro plan
  induction plan with
  | nil =>
    intro k fs rp _ _ _
    constructor
    · intro op hop
      exact absurd hop (by simp [organize_move_loop])
    · intro op hop
      exact absurd hop (by simp [organize_move_loop])
  | cons op0 rest ih =>
    intro k fs rp Hpend Hnodup Hsd
    have Hpend0 : op0.status = .pending := Hpend op0 (List.mem_cons_self _ _)
    have Hnodup' : op0.source_file.path ∉ rest.map (fun op => op.source_file.path)
        ∧ (rest.map fun op => op.source_file.path).Nodup := by
      rw [List.map_cons, List.nodup_cons] at Hnodup
      exact Hnodup
    cases k with
    | zero =>
      constructor
      · intro op _ _
        rfl
      · intro op hop
        exact absurd hop (by simp [organize_move_loop])
    | succ k =>
      obtain ⟨A, B⟩ := ih k (move_file verify ioError fs op0).1
        (update_resume_point rp (some (move_file verify ioError fs op0).2) rest)
        (fun o ho => Hpend o (List.mem_cons_of_mem _ ho))
        Hnodup'.2
        (fun o1 h1 o2 h2 =>
          Hsd o1 (List.mem_cons_of_mem _ h1) o2 (List.mem_cons_of_mem _ h2))
      have hsrc : (move_file verify ioError fs op0).2.source_file.path
          = op0.source_file.path :=
        congrArg Prod.fst (move_file_opKey verify ioError fs op0)
      have hframe : ∀ o ∈ rest, o.source_file.path ≠ op0.source_file.path
          ∧ o.destination_path ≠ op0.source_file.path := by
        intro o ho
        constructor
        · intro hco
          exact Hnodup'.1 (by rw [← hco]; exact List.mem_map_of_mem _ ho)
        · exact Hsd o (List.mem_cons_of_mem _ ho) op0 (List.mem_cons_self _ _)
      constructor
      · intro op hop hne
        have hop' : op ∈ (move_file verify ioError fs op0).2 ::
            ((organize_move_loop verify ioError (move_file verify ioError fs op0).1
                (update_resume_point rp (some (move_file verify ioError fs op0).2) rest)
                rest k).results
              ++ rest.drop (organize_move_loop verify ioError
                (move_file verify ioError fs op0).1
                (update_resume_point rp (some (move_file verify ioError fs op0).2) rest)
                rest k).results.length) := hop
        rcases List.mem_cons.mp hop' with rfl | hmem
        · show (organize_move_loop verify ioError (move_file verify ioError fs op0).1
              (update_resume_point rp (some (move_file verify ioError fs op0).2) rest)
              rest k).fs (move_file verify ioError fs op0).2.source_file.path
            = fs (move_file verify ioError fs op0).2.source_file.path
          rw [hsrc]
          rw [organize_move_loop_frame verify ioError rest k _ _ _ hframe]
          exact move_file_source verify ioError fs op0 hne
        · have hsm : ∃ o ∈ rest, op.source_file.path = o.source_file.path := by
            rcases List.mem_append.mp hmem with hmem | hmem
            · obtain ⟨o, ho, hk⟩ :=
                organize_move_loop_results_keys verify ioError rest k _ _ op hmem
              exact ⟨o, ho, congrArg Prod.fst hk⟩
            · exact ⟨op, List.mem_of_mem_drop hmem, rfl⟩
          obtain ⟨o, ho, hos⟩ := hsm
          have hstep : (move_file verify ioError fs op0).1 op.source_file.path
              = fs op.source_file.path := by
            apply move_file_frame
            · rw [hos]
              exact (hframe o ho).1
            · rw [hos]
              intro hc
              exact Hsd op0 (List.mem_cons_self _ _) o (List.mem_cons_of_mem _ ho) hc.symm
          show (organize_move_loop verify ioError (move_file verify ioError fs op0).1
              (update_resume_point rp (some (move_file verify ioError fs op0).2) rest)
              rest k).fs op.source_file.path = fs op.source_file.path
          rw [A op hmem hne]
          exact hstep
      · intro op hop hcomp
        have hop' : op ∈ (move_file verify ioError fs op0).2 ::
            (organize_move_loop verify ioError (move_file verify ioError fs op0).1
              (update_resume_point rp (some (move_file verify ioError fs op0).2) rest)
              rest k).results := hop
        rcases List.mem_cons.mp hop' with rfl | hmem
        · exact move_file_completed_checksums verify ioError fs op0 Hpend0 hcomp
        · exact B op hmem hcomp

/-- Witness for C1: a concrete two-file run in which the second file's
destination write fails: the first operation completes (its checksums
matching), the second fails, and the failed file's source is untouched. -/
theorem no_data_loss_witness :
    ((∀ op ∈ [opA, opB], op.status = .pending)
      ∧ (([opA, opB]).map fun op => op.source_file.path).Nodup
      ∧ (∀ op1 ∈ [opA, opB], ∀ op2 ∈ [opA, opB],
          op1.destination_path ≠ op2.source_file.path)
      ∧ (organize_move_loop true badB fsW ⟨[], []⟩ [opA, opB] 5).results.map
          (fun op => op.status) = [.completed, .failed]
      ∧ (organize_move_loop true badB fsW ⟨[], []⟩ [opA, opB] 5).fs "s/b.jpg" = some "cb")
    ∧ ((∀ op ∈ (organize_move_loop true badB fsW ⟨[], []⟩ [opA, opB] 5).results
            ++ [opA, opB].drop
              (organize_move_loop true badB fsW ⟨[], []⟩ [opA, opB] 5).results.length,
          op.status ≠ .completed →
          (organize_move_loop true badB fsW ⟨[], []⟩ [opA, opB] 5).fs op.source_file.path
            = fsW op.source_file.path)
      ∧ (∀ op ∈ (organize_move_loop true badB fsW ⟨[], []⟩ [opA, opB] 5).results,
          op.status = .completed →
          ∃ h, op.checksum_source = some h ∧ op.checksum_dest = some h)) :=
  ⟨⟨by decide, by decide, by decide, by decide, by decide⟩,
    no_data_loss true badB [opA, opB] 5 fsW ⟨[], []⟩ (by decide) (by decide) (by decide)⟩

/-- C2 (counterexample to at-most-one-destination on the `organize` path):
`organize.py` resolves every destination before any move (lines 334-352),
against the disk as it is at plan time; three source files that share the
filename `photo.jpg` and the same (initially empty) target folder therefore
all resolve to `t/photo.jpg` — the planned destinations are not pairwise
distinct — and executing that plan silently overwrites: the run completes
with every operation `completed`, yet only the last file's contents survive
at `t/photo.jpg`, no incremented name was ever created, and the other two
files' contents are gone.  By contrast `FileMover.move_files`, which
resolves each destination at move time (the behaviour pinned by
`test_move_files_multiple_duplicates_same_folder`), yields the three
pairwise distinct destinations the specification and
`test_duplicate_filenames_get_numbered` demand. -/
theorem duplicate_destination_collision :
    planDestinations (build_file_operations .increment fsDup orgDup)
      = ["t/photo.jpg", "t/photo.jpg", "t/photo.jpg"]
    ∧ ¬ List.Pairwise (· ≠ ·)
        (planDestinations (build_file_operations .increment fsDup orgDup))
    ∧ (∀ op ∈ (organize_move_phase true (fun _ => false) .increment fsDup orgDup 5).results,
        op.status = .completed)
    ∧ (organize_move_phase true (fun _ => false) .increment fsDup orgDup 5).fs "t/photo.jpg"
        = some "c3"
    ∧ (organize_move_phase true (fun _ => false) .increment fsDup orgDup 5).fs "t/photo_1.jpg"
        = none
    ∧ (organize_move_phase true (fun _ => false) .increment fsDup orgDup 5).fs "t/photo_2.jpg"
        = none
    ∧ (organize_move_phase true (fun _ => false) .increment fsDup orgDup 5).fs "s1/photo.jpg"
        = none
    ∧ planDestinations (move_files true (fun _ => false) .increment false fsDup orgDup).2
        = ["t/photo.jpg", "t/photo_1.jpg", "t/photo_2.jpg"] :=
  ⟨by decide, by decide, by decide, by decide, by decide, by decide, by decide, by decide⟩

/-- Witness for C5: the dry-run `organize` command over the concrete
three-file organization leaves the filesystem and ledgers untouched and
returns 0. -/
theorem dry_run_no_op_witness :
    organize_command true badB .increment true fsDup orgDup 7 = ⟨fsDup, [], [], 0⟩ :=
  dry_run_no_op.2.2 true badB .increment fsDup orgDup 7

/-- Witness for the C2 counterexample: the three planned destinations of
the `organize` path coincide. -/
theorem duplicate_destination_collision_witness :
    planDestinations (build_file_operations .increment fsDup orgDup)
      = ["t/photo.jpg", "t/photo.jpg", "t/photo.jpg"] :=
  duplicate_destination_collision.1
